import Mathlib

/-!
A shallow embedding of `src/verifyToken.js` from the jano-token-verifier
repository: an Express middleware factory that verifies JWT bearer tokens.

Modelling conventions:
- JavaScript string-falsiness (`!s` true for `undefined`, `null`, `""`) is
  made explicit: optional values are `Option String` and the empty string is
  checked separately where the source checks truthiness.
- The `jsonwebtoken` primitive `jwt.verify` is an external trusted library;
  it is passed in as an abstract function `String → String → JwtResult C`
  returning either decoded claims or a thrown error's `name`.
- The per-request handler is pure: instead of mutating `req`/`resp`/calling
  `next`, it returns a `HandlerResult` recording the final request object,
  the response written (if any), how many times `next` was called, and the
  log events emitted.
-/

namespace Jano

/-- The space character, on which `String.prototype.split(' ')` splits. -/
def spaceChar : Char := Char.ofNat 32

/-- JavaScript `s.split(' ')` on the character list of `s`: split at every
single space, keeping empty segments, and `[""]` for the empty string. -/
def splitSp : List Char → List (List Char)
  | [] => [[]]
  | c :: cs =>
      if c = spaceChar then [] :: splitSp cs
      else
        match splitSp cs with
        | [] => [[c]]
        | t :: ts => (c :: t) :: ts

/-- A log event emitted through the configured logger capability. -/
inductive LogEvent where
  | info (msg : String)
  | warn (msg : String)
  deriving DecidableEq

/-- Outcome of the trusted `jwt.verify` primitive on a token and a secret:
either the decoded claims payload, or the `name` of the thrown error
(for example `"TokenExpiredError"` or `"JsonWebTokenError"`). -/
inductive JwtResult (C : Type) where
  | ok (claims : C)
  | error (name : String)
  deriving DecidableEq

/-- The request object: the (lowercased) `authorization` header as Node
exposes it under `req.headers`, and the dynamic properties set on the
object (`req[userProperty] = ...` is observed through property lookup). -/
structure Request (C : Type) where
  authorizationHeader : Option String
  props : List (String × C)
  deriving DecidableEq

/-- JavaScript property lookup on an object modelled as a key-value list
where the first binding for a key wins. -/
def jsLookup {α : Type} : List (String × α) → String → Option α
  | [], _ => none
  | (k, v) :: rest, key => if k = key then some v else jsLookup rest key

/-- JavaScript property assignment `obj[k] = v`, observed through
`jsLookup`: the new binding shadows any older one. -/
def setProp {C : Type} (props : List (String × C)) (k : String) (v : C) :
    List (String × C) :=
  (k, v) :: props

/-- The resolved message configuration after defaults are applied. -/
structure Messages where
  noToken : String
  malformedToken : String
  expiredToken : String
  invalidToken : String
  deriving DecidableEq

/-- The built-in default messages object, as a JavaScript object literal. -/
def defaultMessagesList : List (String × String) :=
  [("noToken", "No authorization header provided"),
   ("malformedToken", "Malformed authorization header"),
   ("expiredToken", "Session expired. Please login"),
   ("invalidToken", "Error validating token credentials. Please relogin")]

/-- JavaScript object spread `{...base, ...ov}`, observed through property
lookup: a key supplied by `ov` wins, otherwise `base` is consulted. -/
def spreadObj (base ov : List (String × String)) (k : String) : Option String :=
  match jsLookup ov k with
  | some v => some v
  | none => jsLookup base k

/-- The `messages` resolution in `createVerifyTokenMiddleware`:
`{ noToken: ..., malformedToken: ..., expiredToken: ..., invalidToken: ...,
...options.messages }`, with a spread of `undefined` being a no-op. -/
def resolvedMessages (ov : Option (List (String × String))) : Messages :=
  { noToken := (spreadObj defaultMessagesList (ov.getD []) "noToken").getD ""
    malformedToken :=
      (spreadObj defaultMessagesList (ov.getD []) "malformedToken").getD ""
    expiredToken :=
      (spreadObj defaultMessagesList (ov.getD []) "expiredToken").getD ""
    invalidToken :=
      (spreadObj defaultMessagesList (ov.getD []) "invalidToken").getD "" }

/-- The configuration closed over by the returned middleware function. -/
structure Config (C : Type) where
  secretKey : String
  disableTokenVerification : Bool
  userProperty : String
  messages : Messages
  extractToken : Request C → Option String

/-- The raw options object passed to `createVerifyTokenMiddleware`; every
field may be absent (`undefined`). `messages` is a raw JavaScript object,
kept as a key-value list. -/
structure Options (C : Type) where
  secretKey : Option String := none
  disableTokenVerification : Option Bool := none
  userProperty : Option String := none
  messages : Option (List (String × String)) := none
  extractToken : Option (Request C → Option String) := none

/-- JavaScript `v || d` for an optional string: the default is taken when
the value is absent or the empty string (both falsy). -/
def jsOrStr (v : Option String) (d : String) : String :=
  match v with
  | none => d
  | some s => if s = "" then d else s

/-- The default token extractor: read `req.headers['authorization']`; if
falsy return `null`; otherwise `const [bearer, token] = authHeader.split(' ')`
and return `token` when `bearer === 'Bearer'`, else `null`.  `none` stands
for both JavaScript `null` and `undefined`. -/
def defaultExtractToken {C : Type} (req : Request C) : Option String :=
  match req.authorizationHeader with
  | none => none
  | some h =>
      if h = "" then none
      else
        if (splitSp h.data).headD [] = "Bearer".data then
          ((splitSp h.data).drop 1).head?.map String.mk
        else none

/-- The message of the error thrown when the secret key is missing. -/
def secretKeyError : String :=
  "Secret key is required in options for JWT verification middleware."

/-- The informational notice logged on the bypass path. -/
def bypassNotice : String :=
  "Token verification is disabled. Skipping verification."

/-- The warning logged when `jwt.verify` throws. -/
def verifyErrNotice : String := "Error decoding/verifying token"

/-- `createVerifyTokenMiddleware(options)`: throws (modelled as
`Except.error`) when `!options || !options.secretKey`, otherwise resolves
every option to the closed-over configuration. A missing or empty
`secretKey` is falsy. -/
def createVerifyTokenMiddleware {C : Type} (options : Option (Options C)) :
    Except String (Config C) :=
  match options with
  | none => Except.error secretKeyError
  | some o =>
      match o.secretKey with
      | none => Except.error secretKeyError
      | some s =>
          if s = "" then Except.error secretKeyError
          else
            Except.ok
              { secretKey := s
                disableTokenVerification := o.disableTokenVerification.getD false
                userProperty := jsOrStr o.userProperty "user"
                messages := resolvedMessages o.messages
                extractToken := o.extractToken.getD defaultExtractToken }

/-- Everything observable about one run of the per-request handler. -/
structure HandlerResult (C : Type) where
  req : Request C
  response : Option (Nat × List (String × String))
  nextCalls : Nat
  logs : List LogEvent
  deriving DecidableEq

/-- The per-request handler `verifyToken(req, resp, next)` returned by the
factory, with `jwt.verify` passed in as the abstract trusted primitive.
A thrown `TokenExpiredError` maps to the expired message; every other
thrown error maps to the invalid message. -/
def verifyToken {C : Type} (cfg : Config C)
    (jwtVerify : String → String → JwtResult C) (req : Request C) :
    HandlerResult C :=
  if cfg.disableTokenVerification then
    { req := req, response := none, nextCalls := 1,
      logs := [LogEvent.info bypassNotice] }
  else
    match cfg.extractToken req with
    | none =>
        { req := req
          response := some (401, [("message", cfg.messages.noToken)])
          nextCalls := 0
          logs := [LogEvent.warn cfg.messages.noToken] }
    | some t =>
        if t = "" then
          { req := req
            response := some (401, [("message", cfg.messages.noToken)])
            nextCalls := 0
            logs := [LogEvent.warn cfg.messages.noToken] }
        else
          match jwtVerify t cfg.secretKey with
          | JwtResult.ok claims =>
              { req := { req with props := setProp req.props cfg.userProperty claims }
                response := none
                nextCalls := 1
                logs := [] }
          | JwtResult.error name =>
              if name = "TokenExpiredError" then
                { req := req
                  response := some (401, [("message", cfg.messages.expiredToken)])
                  nextCalls := 0
                  logs := [LogEvent.warn verifyErrNotice] }
              else
                { req := req
                  response := some (401, [("message", cfg.messages.invalidToken)])
                  nextCalls := 0
                  logs := [LogEvent.warn verifyErrNotice] }

/-- Boolean test that the list `p` is an initial segment of `s`. -/
def listStartsWith {α : Type} [DecidableEq α] : List α → List α → Bool
  | [], _ => true
  | _ :: _, [] => false
  | p :: ps, c :: cs => if p = c then listStartsWith ps cs else false

/-- The header starts with the literal scheme text `"Bearer "`. -/
def hasBearerScheme (h : String) : Bool :=
  listStartsWith "Bearer ".data h.data

theorem splitSp_ne_nil (cs : List Char) : splitSp cs ≠ [] := by
  cases cs with
  | nil => simp [splitSp]
  | cons c cs =>
      simp only [splitSp]
      split
      · simp
      · split <;> simp

theorem splitSp_no_space (cs : List Char) (h : spaceChar ∉ cs) :
    splitSp cs = [cs] := by
  induction cs with
  | nil => rfl
  | cons c cs ih =>
      simp only [List.mem_cons, not_or] at h
      have hc : ¬ c = spaceChar := fun hcc => h.1 hcc.symm
      simp only [splitSp, if_neg hc, ih h.2]

theorem splitSp_append (a cs : List Char) (ha : spaceChar ∉ a) :
    splitSp (a ++ spaceChar :: cs) = a :: splitSp cs := by
  induction a with
  | nil => simp [splitSp]
  | cons c a ih =>
      simp only [List.mem_cons, not_or] at ha
      have hc : ¬ c = spaceChar := fun hcc => ha.1 hcc.symm
      simp only [List.cons_append, splitSp, List.append_eq, if_neg hc, ih ha.2]

theorem splitSp_spec (cs : List Char) :
    (splitSp cs = [cs] ∧ spaceChar ∉ cs) ∨
      ∃ a cs2, cs = a ++ spaceChar :: cs2 ∧ spaceChar ∉ a ∧
        splitSp cs = a :: splitSp cs2 := by
  induction cs with
  | nil => exact Or.inl ⟨rfl, List.not_mem_nil spaceChar⟩
  | cons c cs ih =>
      by_cases hc : c = spaceChar
      · subst hc
        exact Or.inr ⟨[], cs, rfl, List.not_mem_nil spaceChar, by simp [splitSp]⟩
      · rcases ih with ⟨hsp, hmem⟩ | ⟨a, cs2, hdecomp, hmem, hsp⟩
        · refine Or.inl ⟨?_, ?_⟩
          · simp [splitSp, if_neg hc, hsp]
          · simp only [List.mem_cons, not_or]
            exact ⟨fun hcc => hc hcc.symm, hmem⟩
        · refine Or.inr ⟨c :: a, cs2, by simp [hdecomp], ?_, ?_⟩
          · simp only [List.mem_cons, not_or]
            exact ⟨fun hcc => hc hcc.symm, hmem⟩
          · simp only [splitSp, if_neg hc, hsp]

theorem listStartsWith_append {α : Type} [DecidableEq α] (p cs : List α) :
    listStartsWith p (p ++ cs) = true := by
  induction p with
  | nil => rfl
  | cons x p ih => simp [listStartsWith, ih]

theorem bearerSpace_data : "Bearer ".data = "Bearer".data ++ [spaceChar] := by
  decide

/-- If the default extractor yields any token at all, the header was present
and started with the literal text `"Bearer "`. -/
theorem bearer_of_extract {C : Type} (req : Request C) (t : String)
    (h : defaultExtractToken req = some t) :
    ∃ hd, req.authorizationHeader = some hd ∧ hasBearerScheme hd = true := by
  cases hah : req.authorizationHeader with
  | none => simp [defaultExtractToken, hah] at h
  | some hd =>
      refine ⟨hd, rfl, ?_⟩
      simp only [defaultExtractToken, hah] at h
      by_cases hemp : hd = ""
      · rw [if_pos hemp] at h; simp at h
      · rw [if_neg hemp] at h
        rcases splitSp_spec hd.data with ⟨hsp, _⟩ | ⟨a, cs2, hdecomp, _, hsp⟩
        · rw [hsp] at h; simp at h
        · rw [hsp] at h
          by_cases hb : a = "Bearer".data
          · subst hb
            unfold hasBearerScheme
            have hre : "Bearer".data ++ spaceChar :: cs2 =
                ("Bearer".data ++ [spaceChar]) ++ cs2 := by simp
            rw [hdecomp, bearerSpace_data, hre]
            exact listStartsWith_append ("Bearer".data ++ [spaceChar]) cs2
          · rw [List.headD_cons, if_neg hb] at h
            simp at h

/-- The shared no-token rejection path: when verification is enabled and
the configured extractor produces a falsy token (absent or empty), the
handler rejects with 401 / `noToken`, leaves the request unchanged, never
calls `next`, and behaves identically for every verification primitive. -/
theorem noToken_of_falsy {C : Type} (cfg : Config C)
    (jwtVerify : String → String → JwtResult C) (req : Request C)
    (hbp : cfg.disableTokenVerification = false)
    (hex : cfg.extractToken req = none ∨ cfg.extractToken req = some "") :
    verifyToken cfg jwtVerify req =
      { req := req
        response := some (401, [("message", cfg.messages.noToken)])
        nextCalls := 0
        logs := [LogEvent.warn cfg.messages.noToken] } := by
  unfold verifyToken
  rw [hbp]
  simp only [Bool.false_eq_true, if_false]
  rcases hex with hex | hex <;> rw [hex]
  rfl

/-- A resolved configuration with every option at its default, used to
instantiate theorems at concrete inputs. -/
def cfgW : Config Nat :=
  { secretKey := "s3cret"
    disableTokenVerification := false
    userProperty := "user"
    messages := resolvedMessages none
    extractToken := defaultExtractToken }

/-- The default configuration with verification bypassed. -/
def cfgBypassW : Config Nat := { cfgW with disableTokenVerification := true }

/-- The default configuration with a custom extractor always producing the
empty string. -/
def cfgEmptyW : Config Nat := { cfgW with extractToken := fun _ => some "" }

/-- A verification primitive that always fails with a generic error. -/
def jwtFailW : String → String → JwtResult Nat :=
  fun _ _ => JwtResult.error "JsonWebTokenError"

/-- A verification primitive that always fails with an expiry error. -/
def jwtExpW : String → String → JwtResult Nat :=
  fun _ _ => JwtResult.error "TokenExpiredError"

/-- A verification primitive that always accepts with claims `7`. -/
def jwtOkW : String → String → JwtResult Nat := fun _ _ => JwtResult.ok 7

/-- A request carrying no authorization header. -/
def reqNoneW : Request Nat := { authorizationHeader := none, props := [] }

/-- A request carrying a well-formed bearer header. -/
def reqBearerW : Request Nat :=
  { authorizationHeader := some "Bearer tok", props := [] }

/-- C1: every per-request rejection responds with HTTP status 401 — never
any other status — and a JSON body that is exactly one `message` field
holding one of the resolved rejection messages (no-token, expired or
invalid); no rejection path uses a different status code or body shape. -/
theorem c1_rejections_are_401_message_only {C : Type} (cfg : Config C)
    (jwtVerify : String → String → JwtResult C) (req : Request C)
    (s : Nat) (body : List (String × String))
    (h : (verifyToken cfg jwtVerify req).response = some (s, body)) :
    s = 401 ∧ ∃ m, body = [("message", m)] ∧
      (m = cfg.messages.noToken ∨ m = cfg.messages.expiredToken ∨
        m = cfg.messages.invalidToken) := by
  unfold verifyToken at h
  split at h
  · exact absurd h (by simp)
  · split at h
    · obtain ⟨hs, hb⟩ : 401 = s ∧ [("message", cfg.messages.noToken)] = body := by
        simpa using h
      subst hs; subst hb
      exact ⟨rfl, cfg.messages.noToken, rfl, Or.inl rfl⟩
    · split at h
      · obtain ⟨hs, hb⟩ : 401 = s ∧ [("message", cfg.messages.noToken)] = body := by
          simpa using h
        subst hs; subst hb
        exact ⟨rfl, cfg.messages.noToken, rfl, Or.inl rfl⟩
      · split at h
        · exact absurd h (by simp)
        · split at h
          · obtain ⟨hs, hb⟩ :
                401 = s ∧ [("message", cfg.messages.expiredToken)] = body := by
              simpa using h
            subst hs; subst hb
            exact ⟨rfl, cfg.messages.expiredToken, rfl, Or.inr (Or.inl rfl)⟩
          · obtain ⟨hs, hb⟩ :
                401 = s ∧ [("message", cfg.messages.invalidToken)] = body := by
              simpa using h
            subst hs; subst hb
            exact ⟨rfl, cfg.messages.invalidToken, rfl, Or.inr (Or.inr rfl)⟩

/-- C1 witness: the default configuration on a request with no header
rejects with status 401 and the single-field message body. -/
theorem c1_witness :
    401 = 401 ∧ ∃ m, [("message", "No authorization header provided")] =
        [("message", m)] ∧
      (m = cfgW.messages.noToken ∨ m = cfgW.messages.expiredToken ∨
        m = cfgW.messages.invalidToken) :=
  c1_rejections_are_401_message_only cfgW jwtFailW reqNoneW 401
    [("message", "No authorization header provided")] rfl

/-- C2: on a token the verification primitive accepts, the handler attaches
the full decoded claims payload unmodified to the request under the
configured identity field and invokes `next` exactly once with no response
written; when no identity field is configured it defaults to `"user"`. -/
theorem c2_success_attaches_claims_and_continues :
    (∀ (C : Type) (cfg : Config C)
        (jwtVerify : String → String → JwtResult C) (req : Request C)
        (t : String) (claims : C),
        cfg.disableTokenVerification = false →
        cfg.extractToken req = some t → t ≠ "" →
        jwtVerify t cfg.secretKey = JwtResult.ok claims →
        verifyToken cfg jwtVerify req =
          { req := { req with props := setProp req.props cfg.userProperty claims }
            response := none
            nextCalls := 1
            logs := [] }) ∧
    (∀ (o : Options Nat) (cfg : Config Nat),
        o.userProperty = none →
        createVerifyTokenMiddleware (some o) = Except.ok cfg →
        cfg.userProperty = "user") := by
  constructor
  · intro C cfg jwtVerify req t claims hbp hex hne hok
    simp [verifyToken, hbp, hex, hne, hok]
  · intro o cfg hup hok
    simp only [createVerifyTokenMiddleware] at hok
    cases hsk : o.secretKey with
    | none => simp [hsk] at hok
    | some s =>
        simp only [hsk] at hok
        by_cases hs : s = ""
        · rw [if_pos hs] at hok
          exact absurd hok (by simp)
        · rw [if_neg hs] at hok
          injection hok with hcfg
          subst hcfg
          show jsOrStr o.userProperty "user" = "user"
          rw [hup]
          rfl

/-- C2 witness: the default configuration on a valid bearer token with an
accepting primitive attaches claims `7` under `"user"` and calls `next`. -/
theorem c2_witness :
    verifyToken cfgW jwtOkW reqBearerW =
      { req := { reqBearerW with props := setProp reqBearerW.props "user" 7 }
        response := none
        nextCalls := 1
        logs := [] } :=
  c2_success_attaches_claims_and_continues.1 Nat cfgW jwtOkW reqBearerW
    "tok" 7 rfl rfl (by decide) rfl

/-- C3: construction throws exactly when no options are given or the secret
is missing or empty, and this happens at construction time (the factory
returns `Except.error` before any request is handled); any options value
with a non-empty secret yields a configuration for the handler. -/
theorem c3_construction_error_iff_secret_falsy {C : Type}
    (options : Option (Options C)) :
    ((∃ e, createVerifyTokenMiddleware options = Except.error e) ↔
      (options = none ∨ ∃ o, options = some o ∧
        (o.secretKey = none ∨ o.secretKey = some ""))) ∧
    (∀ (o : Options C) (s : String),
      options = some o → o.secretKey = some s → s ≠ "" →
      ∃ cfg, createVerifyTokenMiddleware options = Except.ok cfg) := by
  cases options with
  | none =>
      constructor
      · simp [createVerifyTokenMiddleware]
      · intro o s ho
        exact absurd ho (by simp)
  | some o =>
      cases hsk : o.secretKey with
      | none =>
          constructor
          · constructor
            · intro _
              exact Or.inr ⟨o, rfl, Or.inl hsk⟩
            · intro _
              exact ⟨secretKeyError, by simp [createVerifyTokenMiddleware, hsk]⟩
          · intro o2 s ho hsk2
            obtain rfl : o = o2 := by injection ho
            rw [hsk] at hsk2
            exact absurd hsk2 (by simp)
      | some s =>
          by_cases hs : s = ""
          · subst hs
            constructor
            · constructor
              · intro _
                exact Or.inr ⟨o, rfl, Or.inr hsk⟩
              · intro _
                exact ⟨secretKeyError, by simp [createVerifyTokenMiddleware, hsk]⟩
            · intro o2 s2 ho hsk2 hne
              obtain rfl : o = o2 := by injection ho
              rw [hsk] at hsk2
              injection hsk2 with hse
              exact absurd hse.symm hne
          · constructor
            · constructor
              · intro ⟨e, he⟩
                rw [createVerifyTokenMiddleware] at he
                simp only [hsk] at he
                rw [if_neg hs] at he
                exact absurd he (by simp)
              · intro hcase
                rcases hcase with hno | ⟨o2, ho, hbad⟩
                · exact absurd hno (by simp)
                · obtain rfl : o = o2 := by injection ho
                  rcases hbad with hbad | hbad <;> rw [hsk] at hbad
                  · exact absurd hbad (by simp)
                  · injection hbad with hse
                    exact absurd hse hs
            · intro o2 s2 ho hsk2 hne
              refine ⟨{ secretKey := s
                        disableTokenVerification := o.disableTokenVerification.getD false
                        userProperty := jsOrStr o.userProperty "user"
                        messages := resolvedMessages o.messages
                        extractToken := o.extractToken.getD defaultExtractToken }, ?_⟩
              simp only [createVerifyTokenMiddleware, hsk]
              rw [if_neg hs]

/-- C4: every verification failure is classified into exactly two disjoint,
exhaustive buckets by the thrown error's name: `TokenExpiredError` yields
401 with the expired message, every other error yields 401 with the
invalid message. -/
theorem c4_failure_classification {C : Type} (cfg : Config C)
    (jwtVerify : String → String → JwtResult C) (req : Request C)
    (t name : String)
    (hbp : cfg.disableTokenVerification = false)
    (hex : cfg.extractToken req = some t) (hne : t ≠ "")
    (hv : jwtVerify t cfg.secretKey = JwtResult.error name) :
    verifyToken cfg jwtVerify req =
      { req := req
        response := some (401, [("message",
          if name = "TokenExpiredError" then cfg.messages.expiredToken
          else cfg.messages.invalidToken)])
        nextCalls := 0
        logs := [LogEvent.warn verifyErrNotice] } := by
  by_cases hn : name = "TokenExpiredError" <;>
    simp [verifyToken, hbp, hex, hne, hv, hn]

/-- C4 witness: a generic verification error on the default configuration
is rejected with the invalid-token message. -/
theorem c4_witness :
    verifyToken cfgW jwtFailW reqBearerW =
      { req := reqBearerW
        response := some (401,
          [("message", "Error validating token credentials. Please relogin")])
        nextCalls := 0
        logs := [LogEvent.warn verifyErrNotice] } :=
  c4_failure_classification cfgW jwtFailW reqBearerW "tok" "JsonWebTokenError"
    rfl rfl (by decide) rfl

/-- C5: under the default extractor, a request whose authorization header
is absent, or present but not starting with the text `"Bearer "`, is
rejected with 401 and the no-token message, the continuation is never
invoked, and both input shapes produce the identical outcome. -/
theorem c5_default_extractor_rejects_nonbearer {C : Type} (cfg : Config C)
    (jwtVerify : String → String → JwtResult C) (req : Request C)
    (hbp : cfg.disableTokenVerification = false)
    (hext : cfg.extractToken = defaultExtractToken)
    (hh : req.authorizationHeader = none ∨
      ∃ hd, req.authorizationHeader = some hd ∧ hasBearerScheme hd = false) :
    verifyToken cfg jwtVerify req =
      { req := req
        response := some (401, [("message", cfg.messages.noToken)])
        nextCalls := 0
        logs := [LogEvent.warn cfg.messages.noToken] } := by
  apply noToken_of_falsy cfg jwtVerify req hbp
  rw [hext]
  cases hext2 : defaultExtractToken req with
  | none => exact Or.inl rfl
  | some t =>
      exfalso
      rcases bearer_of_extract req t hext2 with ⟨hd, hah, hsch⟩
      rcases hh with hh | ⟨hd2, hah2, hsch2⟩
      · rw [hh] at hah
        exact absurd hah (by simp)
      · rw [hah] at hah2
        injection hah2 with he
        subst he
        exact absurd (hsch.symm.trans hsch2) (by simp)

/-- C5 witness: the default configuration rejects a request with no
authorization header with the no-token message. -/
theorem c5_witness :
    verifyToken cfgW jwtFailW reqNoneW =
      { req := reqNoneW
        response := some (401, [("message", "No authorization header provided")])
        nextCalls := 0
        logs := [LogEvent.warn "No authorization header provided"] } :=
  c5_default_extractor_rejects_nonbearer cfgW jwtFailW reqNoneW rfl rfl
    (Or.inl rfl)

/-- C6 counterexample: on the header `"Bearer abc def"` the default
extractor yields only the second space-delimited field `"abc"`, not the
entire text `"abc def"` after the first whitespace as the claim states. -/
theorem c6_counterexample :
    defaultExtractToken
        { authorizationHeader := some "Bearer abc def"
          props := ([] : List (String × Nat)) } = some "abc" ∧
      some "abc" ≠ some "abc def" := by decide

theorem spaceChar_data : " ".data = [spaceChar] := by decide

theorem spaceChar_not_in_bearer : spaceChar ∉ "Bearer".data := by decide

/-- C6 as amended: the default extractor splits a present header at every
space character and yields the second space-delimited field — the text
between the first and the second space, not the entire remainder — exactly
when the first field is the case-sensitive literal `"Bearer"`; when that
field is empty or absent (`"Bearer "` with nothing after, or `"Bearer"`
alone) the pipeline treats the result as no token and never invokes the
verification primitive. -/
theorem c6_amended_second_field :
    (∀ (C : Type) (req : Request C) (t rest : String),
        spaceChar ∉ t.data →
        req.authorizationHeader = some ("Bearer " ++ t ++ " " ++ rest) →
        defaultExtractToken req = some t) ∧
    (∀ (C : Type) (req : Request C) (t : String),
        spaceChar ∉ t.data →
        req.authorizationHeader = some ("Bearer " ++ t) →
        defaultExtractToken req = some t) ∧
    (∀ (C : Type) (req : Request C),
        req.authorizationHeader = some "Bearer" →
        defaultExtractToken req = none) ∧
    (∀ (C : Type) (req : Request C) (scheme rest : String),
        spaceChar ∉ scheme.data → scheme ≠ "Bearer" →
        req.authorizationHeader = some (scheme ++ " " ++ rest) →
        defaultExtractToken req = none) ∧
    (∀ (C : Type) (cfg : Config C)
        (jwtVerify jwtVerify2 : String → String → JwtResult C)
        (req : Request C),
        cfg.disableTokenVerification = false →
        (cfg.extractToken req = none ∨ cfg.extractToken req = some "") →
        verifyToken cfg jwtVerify req =
          { req := req
            response := some (401, [("message", cfg.messages.noToken)])
            nextCalls := 0
            logs := [LogEvent.warn cfg.messages.noToken] } ∧
        verifyToken cfg jwtVerify2 req = verifyToken cfg jwtVerify req) := by
  refine ⟨?_, ?_, ?_, ?_, ?_⟩
  · intro C req t rest hns hah
    have hdata : ("Bearer " ++ t ++ " " ++ rest).data =
        "Bearer".data ++ spaceChar :: (t.data ++ spaceChar :: rest.data) := by
      rw [String.data_append, String.data_append, String.data_append,
        bearerSpace_data, spaceChar_data]
      simp only [List.append_assoc, List.singleton_append, List.cons_append,
        List.nil_append]
    have hemp : ("Bearer " ++ t ++ " " ++ rest) ≠ "" := by
      intro he
      rw [String.ext_iff, hdata] at he
      rcases List.append_eq_nil.mp he with ⟨h1, _⟩
      exact absurd h1 (by decide)
    simp only [defaultExtractToken, hah, if_neg hemp, hdata,
      splitSp_append "Bearer".data (t.data ++ spaceChar :: rest.data)
        spaceChar_not_in_bearer,
      splitSp_append t.data rest.data hns]
    simp
  · intro C req t hns hah
    have hdata : ("Bearer " ++ t).data =
        "Bearer".data ++ spaceChar :: t.data := by
      rw [String.data_append, bearerSpace_data]
      simp only [List.append_assoc, List.singleton_append, List.cons_append,
        List.nil_append]
    have hemp : ("Bearer " ++ t) ≠ "" := by
      intro he
      rw [String.ext_iff, hdata] at he
      rcases List.append_eq_nil.mp he with ⟨h1, _⟩
      exact absurd h1 (by decide)
    simp only [defaultExtractToken, hah, if_neg hemp, hdata,
      splitSp_append "Bearer".data t.data spaceChar_not_in_bearer,
      splitSp_no_space t.data hns]
    simp
  · intro C req hah
    have hsp : splitSp "Bearer".data = ["Bearer".data] := by decide
    simp [defaultExtractToken, hah, hsp]
  · intro C req scheme rest hns hnb hah
    have hdata : (scheme ++ " " ++ rest).data =
        scheme.data ++ spaceChar :: rest.data := by
      rw [String.data_append, String.data_append, spaceChar_data]
      simp only [List.append_assoc, List.singleton_append, List.cons_append,
        List.nil_append]
    have hemp : (scheme ++ " " ++ rest) ≠ "" := by
      intro he
      rw [String.ext_iff, hdata] at he
      rcases List.append_eq_nil.mp he with ⟨_, h2⟩
      exact absurd h2 (by simp)
    simp only [defaultExtractToken, hah, if_neg hemp, hdata,
      splitSp_append scheme.data rest.data hns]
    rw [List.headD_cons, if_neg fun he => hnb (String.ext_iff.mpr he)]
  · intro C cfg jwtVerify jwtVerify2 req hbp hex
    refine ⟨noToken_of_falsy cfg jwtVerify req hbp hex, ?_⟩
    rw [noToken_of_falsy cfg jwtVerify2 req hbp hex,
      noToken_of_falsy cfg jwtVerify req hbp hex]

/-- C7: with the bypass flag set at construction time, every request
passes straight to the continuation after the informational bypass notice
is logged; the request is returned untouched (the identity field is left
unset and the credential is never consulted) and no response is written. -/
theorem c7_bypass_continues_every_request {C : Type} (cfg : Config C)
    (jwtVerify : String → String → JwtResult C) (req : Request C)
    (hbp : cfg.disableTokenVerification = true) :
    verifyToken cfg jwtVerify req =
      { req := req
        response := none
        nextCalls := 1
        logs := [LogEvent.info bypassNotice] } := by
  simp [verifyToken, hbp]

/-- C7 witness: the bypassed configuration forwards a request that carries
a bearer header without touching it. -/
theorem c7_witness :
    verifyToken cfgBypassW jwtFailW reqBearerW =
      { req := reqBearerW
        response := none
        nextCalls := 1
        logs := [LogEvent.info bypassNotice] } :=
  c7_bypass_continues_every_request cfgBypassW jwtFailW reqBearerW rfl

/-- A raw `messages` override object holding exactly the supplied subset of
the four message fields, in field order. -/
def ovList (a b c d : Option String) : List (String × String) :=
  (a.map fun v => ("noToken", v)).toList ++
    (b.map fun v => ("malformedToken", v)).toList ++
    (c.map fun v => ("expiredToken", v)).toList ++
    (d.map fun v => ("invalidToken", v)).toList

/-- C8: message-defaults resolution merges field-by-field: a partial
`messages` override supplying any subset of the four fields yields a
configuration holding the supplied values for the overridden fields and
the built-in default strings for every un-overridden field. -/
theorem c8_messages_merge_fieldwise (a b c d : Option String)
    (o : Options Nat) (cfg : Config Nat)
    (hm : o.messages = some (ovList a b c d))
    (hok : createVerifyTokenMiddleware (some o) = Except.ok cfg) :
    cfg.messages =
      { noToken := a.getD "No authorization header provided"
        malformedToken := b.getD "Malformed authorization header"
        expiredToken := c.getD "Session expired. Please login"
        invalidToken := d.getD "Error validating token credentials. Please relogin" } := by
  simp only [createVerifyTokenMiddleware] at hok
  cases hsk : o.secretKey with
  | none => simp [hsk] at hok
  | some s =>
      simp only [hsk] at hok
      by_cases hs : s = ""
      · rw [if_pos hs] at hok
        exact absurd hok (by simp)
      · rw [if_neg hs] at hok
        injection hok with hcfg
        subst hcfg
        show resolvedMessages o.messages = _
        rw [hm]
        rcases a with _ | a <;> rcases b with _ | b <;> rcases c with _ | c <;>
          rcases d with _ | d <;> rfl

/-- An options object overriding only the `noToken` message. -/
def optsMsgW : Options Nat :=
  { secretKey := some "s3cret"
    messages := some (ovList (some "X") none none none) }

/-- The configuration produced from `optsMsgW`. -/
def cfgMsgW : Config Nat :=
  { secretKey := "s3cret"
    disableTokenVerification := false
    userProperty := "user"
    messages := resolvedMessages (some (ovList (some "X") none none none))
    extractToken := defaultExtractToken }

/-- C8 witness: overriding only `noToken` keeps the other three messages at
their built-in defaults. -/
theorem c8_witness :
    cfgMsgW.messages =
      { noToken := "X"
        malformedToken := "Malformed authorization header"
        expiredToken := "Session expired. Please login"
        invalidToken := "Error validating token credentials. Please relogin" } :=
  c8_messages_merge_fieldwise (some "X") none none none optsMsgW cfgMsgW rfl rfl

/-- C9: the only mutation the handler ever performs on the request is the
assignment of decoded claims to the configured identity field, and only on
the successful-verification path; whenever a rejection response is written
the request is untouched, whenever the continuation is invoked no response
is written, properties other than the identity field are never changed,
and any change to the properties is exactly the claims assignment on a
request whose token the primitive accepted. -/
theorem c9_request_frame_property :
    ∀ (C : Type) (cfg : Config C)
      (jwtVerify : String → String → JwtResult C) (req : Request C),
      (verifyToken cfg jwtVerify req).req.authorizationHeader =
          req.authorizationHeader ∧
      ((verifyToken cfg jwtVerify req).response.isSome = true →
        (verifyToken cfg jwtVerify req).req = req) ∧
      ((verifyToken cfg jwtVerify req).nextCalls = 1 →
        (verifyToken cfg jwtVerify req).response = none) ∧
      (∀ k, k ≠ cfg.userProperty →
        jsLookup (verifyToken cfg jwtVerify req).req.props k =
          jsLookup req.props k) ∧
      ((verifyToken cfg jwtVerify req).req.props ≠ req.props →
        ∃ t claims, cfg.extractToken req = some t ∧
          jwtVerify t cfg.secretKey = JwtResult.ok claims ∧
          (verifyToken cfg jwtVerify req).req.props =
            setProp req.props cfg.userProperty claims ∧
          (verifyToken cfg jwtVerify req).response = none ∧
          (verifyToken cfg jwtVerify req).nextCalls = 1) := by
  intro C cfg jwtVerify req
  unfold verifyToken
  split
  · exact ⟨rfl, by simp, fun _ => rfl, fun k _ => rfl, by simp⟩
  · split
    · exact ⟨rfl, fun _ => rfl, by simp, fun k _ => rfl, by simp⟩
    · rename_i t hext
      split
      · exact ⟨rfl, fun _ => rfl, by simp, fun k _ => rfl, by simp⟩
      · split
        · rename_i claims hok
          refine ⟨rfl, by simp, fun _ => rfl, ?_, ?_⟩
          · intro k hk
            show jsLookup (setProp req.props cfg.userProperty claims) k =
              jsLookup req.props k
            simp only [setProp, jsLookup]
            rw [if_neg fun he => hk he.symm]
          · intro _
            exact ⟨t, claims, hext, hok, rfl, rfl, rfl⟩
        · split
          · exact ⟨rfl, fun _ => rfl, by simp, fun k _ => rfl, by simp⟩
          · exact ⟨rfl, fun _ => rfl, by simp, fun k _ => rfl, by simp⟩

/-- C10: for every configured extractor, default or custom, a falsy
extraction result (absent token or empty string) is rejected with 401 and
the no-token message, the continuation is not invoked, and the outcome is
the same for every verification primitive — so no empty token ever
reaches verification. -/
theorem c10_falsy_extraction_never_verified {C : Type} (cfg : Config C)
    (jwtVerify : String → String → JwtResult C) (req : Request C)
    (hbp : cfg.disableTokenVerification = false)
    (hex : cfg.extractToken req = none ∨ cfg.extractToken req = some "") :
    verifyToken cfg jwtVerify req =
      { req := req
        response := some (401, [("message", cfg.messages.noToken)])
        nextCalls := 0
        logs := [LogEvent.warn cfg.messages.noToken] } ∧
    ∀ jwtVerify2, verifyToken cfg jwtVerify2 req = verifyToken cfg jwtVerify req := by
  refine ⟨noToken_of_falsy cfg jwtVerify req hbp hex, fun jwtVerify2 => ?_⟩
  rw [noToken_of_falsy cfg jwtVerify2 req hbp hex,
    noToken_of_falsy cfg jwtVerify req hbp hex]

/-- C10 witness: a custom extractor that returns the empty string is
rejected with the no-token message independently of the primitive. -/
theorem c10_witness :
    verifyToken cfgEmptyW jwtFailW reqBearerW =
      { req := reqBearerW
        response := some (401, [("message", "No authorization header provided")])
        nextCalls := 0
        logs := [LogEvent.warn "No authorization header provided"] } ∧
    ∀ jwtVerify2,
      verifyToken cfgEmptyW jwtVerify2 reqBearerW =
        verifyToken cfgEmptyW jwtFailW reqBearerW :=
  c10_falsy_extraction_never_verified cfgEmptyW jwtFailW reqBearerW rfl
    (Or.inr rfl)

end Jano
